import Mathlib

/-!
Shallow embedding of `data-analytics/beam_ml_toxicity_in_gaming/part2.py`:
a streaming Beam pipeline that keys Pub/Sub messages by their `userid`
attribute, runs two toxicity models over the keyed stream, tags each gaming
prediction by a score threshold, republishes the flagged records to an
output topic and joins the two inference streams into a BigQuery table.

Modelling conventions: byte strings are `List Nat` (one entry per byte),
Python strings are `List Nat` of Unicode codepoints where their identity
matters and Lean `String` where only rendering matters, and floating-point
scores are `ℚ` (every score appearing in the claims is exactly
representable). Beam `DoFn`s become pure functions from one element to the
list of elements they yield; `PCollection` branches become `List`
transformations.
-/

set_option maxRecDepth 8192

namespace Part2

/-! ### UTF-8, as used by `(element.data).decode('UTF-8')`

Python's strict UTF-8 decoder accepts exactly the RFC 3629 encodings:
no continuation-byte starts, no overlong forms, no surrogates, nothing
above U+10FFFF. -/

/-- A Unicode scalar value: any codepoint below 0x110000 that is not a
UTF-16 surrogate. These are exactly the codepoints a Python `str` obtained
from strict UTF-8 decoding can carry. -/
def ValidCodepoint (c : Nat) : Prop :=
  c < 0xD800 ∨ (0xE000 ≤ c ∧ c < 0x110000)

instance (c : Nat) : Decidable (ValidCodepoint c) := by
  unfold ValidCodepoint; infer_instance

/-- UTF-8 encoding of a single Unicode scalar value. -/
def utf8EncodeChar (c : Nat) : List Nat :=
  if c < 0x80 then [c]
  else if c < 0x800 then [0xC0 + c / 64, 0x80 + c % 64]
  else if c < 0x10000 then
    [0xE0 + c / 4096, 0x80 + (c / 64) % 64, 0x80 + c % 64]
  else
    [0xF0 + c / 262144, 0x80 + (c / 4096) % 64, 0x80 + (c / 64) % 64, 0x80 + c % 64]

/-- UTF-8 encoding of a codepoint sequence. -/
def utf8Encode (cps : List Nat) : List Nat :=
  cps.flatMap utf8EncodeChar

/-- Strict UTF-8 decoding of the first codepoint of a byte sequence,
returning the codepoint and the remaining bytes; `none` on empty input or on
any malformed head (lead-byte errors, truncation, bad continuation bytes,
overlong forms, surrogates, values above U+10FFFF), mirroring the error
conditions of Python's `bytes.decode('UTF-8')`. -/
def utf8DecodeOne : List Nat → Option (Nat × List Nat)
  | [] => none
  | b :: bs =>
    if b < 0x80 then some (b, bs)
    else if b < 0xC2 then none
    else if b < 0xE0 then
      match bs with
      | b1 :: bs1 =>
        if 0x80 ≤ b1 ∧ b1 < 0xC0 then
          some ((b - 0xC0) * 64 + (b1 - 0x80), bs1)
        else none
      | [] => none
    else if b < 0xF0 then
      match bs with
      | b1 :: b2 :: bs2 =>
        if 0x80 ≤ b1 ∧ b1 < 0xC0 ∧ 0x80 ≤ b2 ∧ b2 < 0xC0 then
          if (b - 0xE0) * 4096 + (b1 - 0x80) * 64 + (b2 - 0x80) < 0x800
              ∨ (0xD800 ≤ (b - 0xE0) * 4096 + (b1 - 0x80) * 64 + (b2 - 0x80)
                  ∧ (b - 0xE0) * 4096 + (b1 - 0x80) * 64 + (b2 - 0x80) < 0xE000) then none
          else some ((b - 0xE0) * 4096 + (b1 - 0x80) * 64 + (b2 - 0x80), bs2)
        else none
      | _ => none
    else if b < 0xF5 then
      match bs with
      | b1 :: b2 :: b3 :: bs3 =>
        if 0x80 ≤ b1 ∧ b1 < 0xC0 ∧ 0x80 ≤ b2 ∧ b2 < 0xC0 ∧ 0x80 ≤ b3 ∧ b3 < 0xC0 then
          if (b - 0xF0) * 262144 + (b1 - 0x80) * 4096 + (b2 - 0x80) * 64 + (b3 - 0x80) < 0x10000
              ∨ 0x110000 ≤ (b - 0xF0) * 262144 + (b1 - 0x80) * 4096 + (b2 - 0x80) * 64
                  + (b3 - 0x80) then none
          else some ((b - 0xF0) * 262144 + (b1 - 0x80) * 4096 + (b2 - 0x80) * 64 + (b3 - 0x80),
            bs3)
        else none
      | _ => none
    else none

/-- Strict UTF-8 decoding of a whole byte sequence into codepoints; `none`
exactly when Python's `bytes.decode('UTF-8')` raises `UnicodeDecodeError`. -/
def utf8Decode (bs : List Nat) : Option (List Nat) :=
  if bs = [] then some []
  else
    match hcr : utf8DecodeOne bs with
    | some cr => (utf8Decode cr.2).map (fun cs => cr.1 :: cs)
    | none => none
termination_by bs.length
decreasing_by
  rcases bs with _ | ⟨b, rest⟩
  · simp [utf8DecodeOne] at hcr
  · rw [utf8DecodeOne.eq_def] at hcr
    simp only [] at hcr
    split_ifs at hcr
    · cases hcr; simp
    · rcases rest with _ | ⟨b1, bs1⟩
      · simp at hcr
      · simp only [] at hcr
        split_ifs at hcr
        · cases hcr; simp
          omega
    · rcases rest with _ | ⟨b1, _ | ⟨b2, bs2⟩⟩
      · simp at hcr
      · simp at hcr
      · simp only [] at hcr
        split_ifs at hcr
        · cases hcr; simp
          omega
    · rcases rest with _ | ⟨b1, _ | ⟨b2, _ | ⟨b3, bs3⟩⟩⟩
      · simp at hcr
      · simp at hcr
      · simp at hcr
      · simp only [] at hcr
        split_ifs at hcr
        · cases hcr; simp
          omega

/-- A byte sequence is valid UTF-8 when it is the encoding of some sequence
of Unicode scalar values. -/
def ValidUtf8 (bs : List Nat) : Prop :=
  ∃ cps : List Nat, (∀ c ∈ cps, ValidCodepoint c) ∧ bs = utf8Encode cps

/-! ### Messages and the keying transform `tag_with_key` -/

/-- A Pub/Sub message as read with `with_attributes=True`: an attribute map
and a byte payload. The attribute map is an association list keyed by
attribute name. -/
structure Message where
  attributes : List (String × String)
  data : List Nat
deriving DecidableEq

/-- The two per-record errors `tag_with_key.process` can raise: `missingKey`
is the `KeyError` from `element.attributes["userid"]`, `decoding` is the
`UnicodeDecodeError` from `(element.data).decode('UTF-8')`. -/
inductive TagError
  | missingKey
  | decoding
deriving DecidableEq

/-- `tag_with_key.process`: yields the single pair
`(element.attributes["userid"], (element.data).decode('UTF-8'))`.
Python evaluates the tuple left to right, so the attribute lookup (and its
`KeyError`) happens before the payload decode (and its
`UnicodeDecodeError`); a raised error means no element is yielded. The
decoded Python string is modelled by its codepoint sequence. -/
def tag_with_key (element : Message) : Except TagError (String × List Nat) :=
  match element.attributes.lookup "userid" with
  | none => .error .missingKey
  | some uid =>
    match utf8Decode element.data with
    | none => .error .decoding
    | some cps => .ok (uid, cps)

/-! ### Keyed inference results and `flag_for_toxic` -/

/-- The Beam `PredictionResult` paired with its key, as `flag_for_toxic`
consumes it: `element[1][1]` selects the second positional field of the
named tuple, its `inference` tensor. The record is modelled by its input
text (`ex`, the codepoints fed to the model — named `example` in Beam,
which is a Lean keyword) and the scalar score that `.numpy().item()`
extracts from the inference tensor. -/
structure PredictionResult where
  ex : List Nat
  inference : ℚ
deriving DecidableEq

/-- `flag_for_toxic.process`: reads `tox_level = element[1][1].numpy().item()`
and yields the single pair `("not", element)` when `tox_level > -0.5`
(`-0.5` is written `-(1/2)` here) and `("nice", element)` otherwise. -/
def flag_for_toxic (element : String × PredictionResult) :
    List (String × (String × PredictionResult)) :=
  if element.2.inference > -(1/2 : ℚ) then [("not", element)]
  else [("nice", element)]

/-- The tag `run` treats as flagged toxic: its Pub/Sub branch keeps exactly
the outcomes passing `lambda outcome: outcome[0] == "not"`, and the source
comments this filter with `if toxic then write to Pub/Sub` and
`"Not" denotes not nice`. -/
def toxic_label : String := "not"

/-- The filter predicate `lambda outcome: outcome[0] == "not"` of the
Pub/Sub output branch. -/
def not_filter (outcome : String × (String × PredictionResult)) : Bool :=
  outcome.1 == toxic_label

/-! ### Rendering and the Pub/Sub output branch

`run` publishes `bytes(str(element[1]), "UTF-8")`. `str` on the
`(key, PredictionResult)` tuple is Python's tuple rendering of external
framework objects, so only its shape is fixed here: it renders the key, the
example and the inference score of the whole record (quotation marks and
the exact float format are immaterial to every claim). -/

/-- Modelled from the spec: the textual rendering of a score inside
`str(element[1])`. Python's float formatting is external; the spec only
requires the rendered pair to be reconstructible, so the score is rendered
as an exact fraction. -/
def pyStrRat (q : ℚ) : String :=
  toString q.num ++ "/" ++ toString q.den

/-- Rendering of a codepoint list (the model's stand-in for the input
tensor inside `str(element[1])`). -/
def pyStrNatList (l : List Nat) : String :=
  "[" ++ String.intercalate ", " (l.map toString) ++ "]"

/-- Modelled from the spec: the rendering of a bare `PredictionResult`
named tuple — both its example and its inference appear. -/
def pyStrPrediction (p : PredictionResult) : String :=
  "PredictionResult(example=" ++ pyStrNatList p.ex
    ++ ", inference=" ++ pyStrRat p.inference ++ ", model_id=None)"

/-- Modelled from the spec: `str(element[1])`, the rendering of the entire
keyed prediction record that `run` converts to a byte string — key,
example and inference all appear. -/
def pyStrKeyedPrediction (kp : String × PredictionResult) : String :=
  "(" ++ kp.1 ++ ", " ++ pyStrPrediction kp.2 ++ ")"

/-- `bytes(s, "UTF-8")`: the UTF-8 encoding of a Python string's
codepoints, for a rendered Lean `String`. -/
def strToBytes (s : String) : List Nat :=
  utf8Encode (s.data.map (fun c => c.toNat))

/-- The `Convert to bytestring` step of `run`:
`lambda element: bytes(str(element[1]), "UTF-8")`. -/
def convert_to_bytestring (element : String × (String × PredictionResult)) : List Nat :=
  strToBytes (pyStrKeyedPrediction element.2)

/-- The Pub/Sub output branch of `run`: filter the labeled records with
`not_filter`, then render each survivor with `convert_to_bytestring`; the
resulting byte strings are what `WriteToPubSub` publishes to the output
topic. -/
def output_router (labeled : List (String × (String × PredictionResult))) :
    List (List Nat) :=
  (labeled.filter not_filter).map convert_to_bytestring

/-! ### The inference stages and the join -/

/-- Modelled from the spec: `RunInference` with a `KeyedModelHandler` is
external Beam framework code (only wrapped by this file); per the spec it
emits one Prediction Result per input Keyed Record, applying the wrapped
model to the payload while carrying the key through. -/
def runInference (model : List Nat → ℚ) (stream : List (String × List Nat)) :
    List (String × PredictionResult) :=
  stream.map (fun kv => (kv.1, { ex := kv.2, inference := model kv.2 }))

/-- The values a stream holds for a key (in stream order). -/
def valuesFor {α : Type} (k : String) (stream : List (String × α)) : List α :=
  (stream.filter (fun p => p.1 == k)).map Prod.snd

/-- Modelled from the spec: `beam.CoGroupByKey` is external Beam framework
code; per the spec, within one window it emits, for every key present in at
least one input stream, a single record pairing that key with the list of
its values from each stream — an empty list standing in for a stream that
lacks the key. The `gaming` stream is the first component, `movie` the
second, matching the dict `{gaming: ..., movie: ...}` passed to `Join`. -/
def coGroupByKey {α : Type} (gaming movie : List (String × α)) :
    List (String × (List α × List α)) :=
  ((gaming.map Prod.fst ++ movie.map Prod.fst).dedup).map
    (fun k => (k, (valuesFor k gaming, valuesFor k movie)))

/-! ### Model loading -/

/-- Modelled from the spec: the result of `tf.keras.models.load_model`.
TensorFlow is external; what the spec constrains is the artifact location
used and whether training-mode graph state (the `compile` flag: optimizer
state and compiled training features) is materialized, so a loaded model is
modelled by exactly those two facts. -/
structure LoadedModel where
  uri : String
  compiled : Bool
deriving DecidableEq

/-- Modelled from the spec: `tf.keras.models.load_model(uri, compile=c)`. -/
def keras_load_model (uri : String) (withCompile : Bool) : LoadedModel :=
  { uri := uri, compiled := withCompile }

/-- The handler subclass: it only stores the model location (`_model_uri`
in the Python base class). -/
structure extendTFModelHandlerTensor where
  model_uri : String
deriving DecidableEq

/-- `extendTFModelHandlerTensor.load_model`: returns
`tf.keras.models.load_model(self._model_uri, compile=False)`. -/
def load_model (handler : extendTFModelHandlerTensor) : LoadedModel :=
  keras_load_model handler.model_uri false

/-! ### The wiring of `run` -/

/-- The external endpoints `run` wires up, together with the BigQuery
schema it declares (fields as `(name, type, mode)` triples). -/
structure RunConfig where
  input_topic : String
  output_topic : String
  output_bigquery : String
  table_schema : List (String × String × String)

/-- The configuration `run(project_id, ...)` computes:
`"projects/{}/topics/tox-input".format(project_id)` and its output
counterpart for Pub/Sub, `"{}:demo.tox".format(project_id)` for BigQuery
(`.format` splices the argument at the `\x7b\x7d` placeholder), and the
literal one-field schema dict. -/
def run_config (project_id : String) : RunConfig :=
  { input_topic := "projects/" ++ project_id ++ "/topics/tox-input"
    output_topic := "projects/" ++ project_id ++ "/topics/tox-output"
    output_bigquery := project_id ++ ":demo.tox"
    table_schema := [("data_col", "STRING", "NULLABLE")] }

/-- Modelled from the spec: `str(element)` on a joined record, the
rendering of the key with the two prediction lists (`gaming` first). As
with `pyStrKeyedPrediction`, only its shape matters. -/
def pyStrJoinedRecord
    (element : String × (List PredictionResult × List PredictionResult)) : String :=
  "(" ++ element.1 ++ ", ("
    ++ "[" ++ String.intercalate ", " (element.2.1.map pyStrPrediction) ++ "]"
    ++ ", "
    ++ "[" ++ String.intercalate ", " (element.2.2.map pyStrPrediction) ++ "]"
    ++ "))"

/-- The `Convert to string` step of `run`:
`lambda element: {"data_col": str(element)}` — a one-entry row binding the
schema's single column to the rendered joined record. -/
def bigquery_row
    (element : String × (List PredictionResult × List PredictionResult)) :
    List (String × String) :=
  [("data_col", pyStrJoinedRecord element)]

/-! ## Theorems

First the UTF-8 codec facts, then list-level helpers, then one theorem per
specification claim. -/

theorem utf8DecodeOne_length (bs : List Nat) (cr : Nat × List Nat)
    (h : utf8DecodeOne bs = some cr) : cr.2.length < bs.length := by
  match bs with
  | [] => simp [utf8DecodeOne] at h
  | b :: bs =>
    rw [utf8DecodeOne.eq_def] at h
    simp only [] at h
    split_ifs at h
    · cases h; simp
    · rcases bs with _ | ⟨b1, bs1⟩
      · simp at h
      · simp only [] at h
        split_ifs at h
        · cases h; simp
          omega
    · rcases bs with _ | ⟨b1, _ | ⟨b2, bs2⟩⟩
      · simp at h
      · simp at h
      · simp only [] at h
        split_ifs at h
        · cases h; simp
          omega
    · rcases bs with _ | ⟨b1, _ | ⟨b2, _ | ⟨b3, bs3⟩⟩⟩
      · simp at h
      · simp at h
      · simp at h
      · simp only [] at h
        split_ifs at h
        · cases h; simp
          omega

theorem utf8DecodeOne_encodeChar (c : Nat) (h : ValidCodepoint c) (bs : List Nat) :
    utf8DecodeOne (utf8EncodeChar c ++ bs) = some (c, bs) := by
  have h' : c < 0x110000 := by
    rcases h with h | h
    · omega
    · omega
  rcases Nat.lt_or_ge c 0x80 with h0 | h0
  · rw [show utf8EncodeChar c = [c] from by rw [utf8EncodeChar, if_pos h0]]
    rw [List.cons_append, List.nil_append, utf8DecodeOne.eq_def]
    simp only []
    rw [if_pos h0]
  rcases Nat.lt_or_ge c 0x800 with h1 | h1
  · rw [show utf8EncodeChar c = [0xC0 + c / 64, 0x80 + c % 64] from by
      rw [utf8EncodeChar, if_neg (by omega), if_pos h1]]
    rw [List.cons_append, List.cons_append, List.nil_append, utf8DecodeOne.eq_def]
    simp only []
    rw [if_neg (by omega), if_neg (by omega), if_pos (by omega), if_pos (by omega)]
    rw [show (0xC0 + c / 64 - 0xC0) * 64 + (0x80 + c % 64 - 0x80) = c from by omega]
  rcases Nat.lt_or_ge c 0x10000 with h2 | h2
  · rw [show utf8EncodeChar c = [0xE0 + c / 4096, 0x80 + (c / 64) % 64, 0x80 + c % 64] from by
      rw [utf8EncodeChar, if_neg (by omega), if_neg (by omega), if_pos h2]]
    rw [List.cons_append, List.cons_append, List.cons_append, List.nil_append,
      utf8DecodeOne.eq_def]
    simp only []
    rw [if_neg (by omega), if_neg (by omega), if_neg (by omega), if_pos (by omega),
      if_pos (by omega)]
    have hc : (0xE0 + c / 4096 - 0xE0) * 4096 + (0x80 + (c / 64) % 64 - 0x80) * 64
        + (0x80 + c % 64 - 0x80) = c := by omega
    rw [hc]
    rcases h with h | h
    · rw [if_neg (by omega)]
    · rw [if_neg (by omega)]
  · rw [show utf8EncodeChar c
        = [0xF0 + c / 262144, 0x80 + (c / 4096) % 64, 0x80 + (c / 64) % 64, 0x80 + c % 64] from by
      rw [utf8EncodeChar, if_neg (by omega), if_neg (by omega), if_neg (by omega)]]
    rw [List.cons_append, List.cons_append, List.cons_append, List.cons_append,
      List.nil_append, utf8DecodeOne.eq_def]
    simp only []
    rw [if_neg (by omega), if_neg (by omega), if_neg (by omega), if_neg (by omega),
      if_pos (by omega), if_pos (by omega)]
    have hc : (0xF0 + c / 262144 - 0xF0) * 262144 + (0x80 + (c / 4096) % 64 - 0x80) * 4096
        + (0x80 + (c / 64) % 64 - 0x80) * 64 + (0x80 + c % 64 - 0x80) = c := by omega
    rw [hc, if_neg (by omega)]

theorem utf8DecodeOne_sound (bs : List Nat) (cr : Nat × List Nat)
    (h : utf8DecodeOne bs = some cr) :
    ValidCodepoint cr.1 ∧ bs = utf8EncodeChar cr.1 ++ cr.2 := by
  match bs with
  | [] => simp [utf8DecodeOne] at h
  | b :: bs =>
    rw [utf8DecodeOne.eq_def] at h
    simp only [] at h
    split_ifs at h with hb0 hb1 hb2 hb3 hb4
    · cases h
      refine ⟨by unfold ValidCodepoint; omega, ?_⟩
      rw [utf8EncodeChar, if_pos hb0, List.cons_append, List.nil_append]
    · rcases bs with _ | ⟨b1, bs1⟩
      · simp at h
      · simp only [] at h
        split_ifs at h with hcont
        cases h
        refine ⟨by unfold ValidCodepoint; omega, ?_⟩
        rw [utf8EncodeChar, if_neg (by omega), if_pos (by omega)]
        simp only [List.cons_append, List.nil_append, List.cons.injEq]
        refine ⟨by omega, by omega, trivial⟩
    · rcases bs with _ | ⟨b1, _ | ⟨b2, bs2⟩⟩
      · simp at h
      · simp at h
      · simp only [] at h
        split_ifs at h with hcont hrange
        cases h
        refine ⟨by unfold ValidCodepoint; omega, ?_⟩
        rw [utf8EncodeChar, if_neg (by omega), if_neg (by omega), if_pos (by omega)]
        simp only [List.cons_append, List.nil_append, List.cons.injEq]
        refine ⟨by omega, by omega, by omega, trivial⟩
    · rcases bs with _ | ⟨b1, _ | ⟨b2, _ | ⟨b3, bs3⟩⟩⟩
      · simp at h
      · simp at h
      · simp at h
      · simp only [] at h
        split_ifs at h with hcont hrange
        cases h
        refine ⟨by unfold ValidCodepoint; omega, ?_⟩
        rw [utf8EncodeChar, if_neg (by omega), if_neg (by omega), if_neg (by omega)]
        simp only [List.cons_append, List.nil_append, List.cons.injEq]
        refine ⟨by omega, by omega, by omega, by omega, trivial⟩

theorem utf8Decode_nil : utf8Decode [] = some [] := by
  rw [utf8Decode]
  simp

theorem utf8Decode_of_some (bs : List Nat) (c : Nat) (rest : List Nat)
    (h : utf8DecodeOne bs = some (c, rest)) :
    utf8Decode bs = (utf8Decode rest).map (fun cs => c :: cs) := by
  have hbs : bs ≠ [] := by
    intro e
    subst e
    simp [utf8DecodeOne] at h
  rw [utf8Decode, if_neg hbs]
  split
  · rename_i cr hcr
    rw [h] at hcr
    cases hcr
    rfl
  · rename_i hcr
    rw [h] at hcr
    cases hcr

theorem utf8Decode_of_none (bs : List Nat) (hbs : bs ≠ [])
    (h : utf8DecodeOne bs = none) : utf8Decode bs = none := by
  rw [utf8Decode, if_neg hbs]
  split
  · rename_i cr hcr
    rw [h] at hcr
    cases hcr
  · rfl

theorem utf8Decode_utf8Encode (cps : List Nat) (h : ∀ c ∈ cps, ValidCodepoint c) :
    utf8Decode (utf8Encode cps) = some cps := by
  induction cps with
  | nil => simpa [utf8Encode] using utf8Decode_nil
  | cons c rest ih =>
    have hc : ValidCodepoint c := h c (by simp)
    have hrest : ∀ x ∈ rest, ValidCodepoint x := fun x hx => h x (by simp [hx])
    rw [show utf8Encode (c :: rest) = utf8EncodeChar c ++ utf8Encode rest from by
      simp [utf8Encode]]
    rw [utf8Decode_of_some _ c _ (utf8DecodeOne_encodeChar c hc _), ih hrest]
    rfl

theorem utf8Decode_sound_aux (n : Nat) :
    ∀ bs : List Nat, bs.length ≤ n → ∀ cps : List Nat, utf8Decode bs = some cps →
      (∀ c ∈ cps, ValidCodepoint c) ∧ bs = utf8Encode cps := by
  induction n with
  | zero =>
    intro bs hlen cps h
    have hbs : bs = [] := List.length_eq_zero.mp (Nat.le_zero.mp hlen)
    subst hbs
    rw [utf8Decode_nil] at h
    cases h
    exact ⟨by simp, by simp [utf8Encode]⟩
  | succ n ih =>
    intro bs hlen cps h
    rcases hbs : bs with _ | ⟨b, rest⟩
    · subst hbs
      rw [utf8Decode_nil] at h
      cases h
      exact ⟨by simp, by simp [utf8Encode]⟩
    · subst hbs
      rcases hone : utf8DecodeOne (b :: rest) with _ | ⟨c, rest2⟩
      · rw [utf8Decode_of_none _ (by simp) hone] at h
        cases h
      · obtain ⟨hvalid, heq⟩ := utf8DecodeOne_sound _ _ hone
        have hlt := utf8DecodeOne_length _ _ hone
        rw [utf8Decode_of_some _ c rest2 hone] at h
        rcases ho : utf8Decode rest2 with _ | cps'
        · rw [ho] at h
          cases h
        · rw [ho] at h
          simp only [Option.map_some'] at h
          obtain ⟨hv', he'⟩ := ih rest2 (by simp at hlt hlen ⊢; omega) cps' ho
          obtain rfl : cps = c :: cps' := (Option.some_inj.mp h).symm
          refine ⟨?_, ?_⟩
          · intro x hx
            rcases List.mem_cons.mp hx with hx | hx
            · exact hx ▸ hvalid
            · exact hv' x hx
          · rw [show utf8Encode (c :: cps') = utf8EncodeChar c ++ utf8Encode cps' from by
              simp [utf8Encode]]
            rw [← he']
            exact heq

theorem utf8Decode_sound (bs cps : List Nat) (h : utf8Decode bs = some cps) :
    (∀ c ∈ cps, ValidCodepoint c) ∧ bs = utf8Encode cps :=
  utf8Decode_sound_aux bs.length bs le_rfl cps h

theorem utf8Decode_isSome_iff (bs : List Nat) :
    (∃ cps, utf8Decode bs = some cps) ↔ ValidUtf8 bs := by
  constructor
  · rintro ⟨cps, h⟩
    obtain ⟨hv, he⟩ := utf8Decode_sound bs cps h
    exact ⟨cps, hv, he⟩
  · rintro ⟨cps, hv, he⟩
    exact ⟨cps, he ▸ utf8Decode_utf8Encode cps hv⟩

theorem utf8Decode_none_iff (bs : List Nat) :
    utf8Decode bs = none ↔ ¬ ValidUtf8 bs := by
  rw [← utf8Decode_isSome_iff]
  rcases h : utf8Decode bs with _ | cps
  · simp
  · simp [h]

/-! ### Grouping helpers for the join stage -/

theorem nodup_filter_beq (l : List String) (k : String) (hnd : l.Nodup) (hk : k ∈ l) :
    l.filter (fun x => x == k) = [k] := by
  induction l with
  | nil => cases hk
  | cons a l ih =>
    rcases List.mem_cons.mp hk with h | hk
    · subst h
      have ha : k ∉ l := (List.nodup_cons.mp hnd).1
      have hnil : l.filter (fun x => x == k) = [] := by
        rw [List.filter_eq_nil_iff]
        intro x hx
        simp only [beq_iff_eq]
        intro e
        exact ha (e ▸ hx)
      simp [List.filter_cons, hnil]
    · have hne : a ≠ k := fun e => (List.nodup_cons.mp hnd).1 (e ▸ hk)
      rw [List.filter_cons]
      rw [if_neg (by simp [hne])]
      exact ih (List.nodup_cons.mp hnd).2 hk

theorem valuesFor_eq_nil {α : Type} (k : String) (stream : List (String × α))
    (hk : k ∉ stream.map Prod.fst) : valuesFor k stream = [] := by
  unfold valuesFor
  rw [List.filter_eq_nil_iff.mpr, List.map_nil]
  intro p hp
  simp only [beq_iff_eq]
  intro e
  exact hk (List.mem_map.mpr ⟨p, hp, e⟩)

theorem coGroupByKey_filter_key {α : Type} (gaming movie : List (String × α)) (k : String)
    (hk : k ∈ gaming.map Prod.fst ∨ k ∈ movie.map Prod.fst) :
    (coGroupByKey gaming movie).filter (fun p => p.1 == k)
      = [(k, (valuesFor k gaming, valuesFor k movie))] := by
  unfold coGroupByKey
  rw [List.filter_map]
  have hcomp : ((fun p : String × (List α × List α) => p.1 == k)
      ∘ (fun k' => (k', (valuesFor k' gaming, valuesFor k' movie))))
      = fun x => x == k := rfl
  rw [hcomp]
  rw [nodup_filter_beq _ k (List.nodup_dedup _)
    (List.mem_dedup.mpr (by
      rcases hk with h | h
      · exact List.mem_append.mpr (Or.inl h)
      · exact List.mem_append.mpr (Or.inr h)))]
  simp

/-! ### The claims -/

/-- Claim C1, counterexample. The claim says the toxic label is assigned
iff the raw score is at most -1/2; at raw score -9/10 that fails — the code
labels it "nice" because the flag goes to scores strictly ABOVE -1/2, not
below. -/
theorem flag_threshold_direction_cex :
    ¬ (((flag_for_toxic ("u1", { ex := [104], inference := -(9/10 : ℚ) })).map Prod.fst
          = [toxic_label])
        ↔ (-(9/10 : ℚ) ≤ -(1/2 : ℚ))) := by
  intro h
  have h2 := h.mpr (by norm_num)
  rw [show flag_for_toxic ("u1", { ex := [104], inference := -(9/10 : ℚ) })
      = [("nice", ("u1", { ex := [104], inference := -(9/10 : ℚ) }))] from by
    simp only [flag_for_toxic]
    rw [if_neg (by norm_num)]] at h2
  simp [toxic_label] at h2

/-- Claim C1, amended: `flag_for_toxic` assigns the toxic label iff the raw
score is strictly greater than -1/2; in particular a raw score exactly
-1/2 is labeled "nice" (not toxic) because the comparison is a strict `>`
against -1/2. -/
theorem flag_for_toxic_threshold (element : String × PredictionResult) :
    ((flag_for_toxic element).map Prod.fst = [toxic_label]
        ↔ -(1/2 : ℚ) < element.2.inference)
    ∧ (element.2.inference = -(1/2 : ℚ)
        → (flag_for_toxic element).map Prod.fst = ["nice"]) := by
  constructor
  · unfold flag_for_toxic toxic_label
    by_cases h : -(1/2 : ℚ) < element.2.inference
    · rw [if_pos h]
      simpa using h
    · rw [if_neg h]
      constructor
      · intro he
        simp at he
      · intro hc
        exact absurd hc h
  · intro he
    unfold flag_for_toxic
    rw [if_neg (by rw [he]; norm_num)]
    simp

/-- Claim C1, witness for the boundary hypothesis: at raw score exactly
-1/2 the emitted label is "nice". -/
theorem flag_for_toxic_threshold_witness :
    (flag_for_toxic ("u1", { ex := [104], inference := -(1/2 : ℚ) })).map Prod.fst
      = ["nice"] :=
  (flag_for_toxic_threshold ("u1", { ex := [104], inference := -(1/2 : ℚ) })).2 rfl

/-- Claim C2, counterexample. The claim says the emitted label is one of
the two values "toxic" and "not_toxic"; the code emits "not" (at raw score
0, say), which is neither. -/
theorem flag_label_values_cex :
    ¬ (∀ p ∈ flag_for_toxic ("u1", { ex := [104], inference := (0 : ℚ) }),
        p.1 = "toxic" ∨ p.1 = "not_toxic") := by
  intro h
  have hmem : ("not", ("u1", ({ ex := [104], inference := (0 : ℚ) } : PredictionResult)))
      ∈ flag_for_toxic ("u1", { ex := [104], inference := (0 : ℚ) }) := by
    simp only [flag_for_toxic]
    rw [if_pos (by norm_num)]
    simp
  rcases h _ hmem with h' | h'
  · exact absurd h' (by decide)
  · exact absurd h' (by decide)

/-- Claim C2, amended: `flag_for_toxic` is a deterministic pure function of
the raw score: it emits exactly one labeled record, whose label is one of
the two values "not" (meaning toxic) and "nice" (meaning not toxic), and
two inputs with equal raw scores receive equal labels. -/
theorem flag_for_toxic_label_set (element : String × PredictionResult) :
    (∃ tag, flag_for_toxic element = [(tag, element)] ∧ (tag = "not" ∨ tag = "nice"))
    ∧ (∀ other : String × PredictionResult,
        other.2.inference = element.2.inference
        → (flag_for_toxic other).map Prod.fst = (flag_for_toxic element).map Prod.fst) := by
  constructor
  · unfold flag_for_toxic
    by_cases h : -(1/2 : ℚ) < element.2.inference
    · exact ⟨"not", by rw [if_pos h], Or.inl rfl⟩
    · exact ⟨"nice", by rw [if_neg h], Or.inr rfl⟩
  · intro other he
    unfold flag_for_toxic
    rw [he]
    by_cases h : -(1/2 : ℚ) < element.2.inference
    · rw [if_pos h, if_pos h]
      rfl
    · rw [if_neg h, if_neg h]
      rfl


/-- Claim C2, witness for the purity hypothesis: two records with equal raw
scores but different keys and payloads receive the same label. -/
theorem flag_for_toxic_label_set_witness :
    (flag_for_toxic ("u2", { ex := [105], inference := (0 : ℚ) })).map Prod.fst
      = (flag_for_toxic ("u1", { ex := [104], inference := (0 : ℚ) })).map Prod.fst :=
  (flag_for_toxic_label_set ("u1", { ex := [104], inference := (0 : ℚ) })).2
    ("u2", { ex := [105], inference := (0 : ℚ) }) rfl

/-- Claim C3, counterexample. The claim says the published byte string
serializes the (key, raw_score) pair of the record; but no function of that
pair can produce what the router publishes: two toxic-labeled records with
the same key and the same raw score but different payloads are published as
different byte strings, because the router serializes the whole record. -/
theorem output_router_serialization_cex :
    ¬ ∃ serialize : String × ℚ → List Nat,
        ∀ kp : String × PredictionResult,
          output_router [(toxic_label, kp)] = [serialize (kp.1, kp.2.inference)] := by
  rintro ⟨serialize, hs⟩
  have h1 := hs ("u1", { ex := [1], inference := (1 : ℚ) })
  have h2 := hs ("u1", { ex := [2], inference := (1 : ℚ) })
  have h12 : output_router [(toxic_label, ("u1", { ex := [1], inference := (1 : ℚ) }))]
      = output_router [(toxic_label, ("u1", { ex := [2], inference := (1 : ℚ) }))] := by
    rw [h1, h2]
  exact absurd h12 (by decide)

/-- Claim C3, amended: the output branch publishes a labeled record iff its
label is the toxic label "not", and what it publishes is the UTF-8 byte
string rendering the entire (key, PredictionResult) record (from which key
and raw score are reconstructible); records with any other label are never
published. -/
theorem output_router_spec (tag : String) (kp : String × PredictionResult)
    (labeled : List (String × (String × PredictionResult))) :
    output_router ((tag, kp) :: labeled)
      = (if tag = toxic_label then [strToBytes (pyStrKeyedPrediction kp)] else [])
        ++ output_router labeled := by
  unfold output_router not_filter convert_to_bytestring
  rw [List.filter_cons]
  by_cases h : tag = toxic_label
  · rw [if_pos (by simp [h]), if_pos h]
    simp
  · rw [if_neg (by simp [h]), if_neg h]
    simp

/-- Claim C4 (spec-modelled, `RunInference`/`KeyedModelHandler` are
external framework code): the inference stage preserves every key — the
keys of its output predictions are exactly the keys of its input stream,
in order. -/
theorem runInference_key_preservation (model : List Nat → ℚ)
    (stream : List (String × List Nat)) :
    (runInference model stream).map Prod.fst = stream.map Prod.fst := by
  unfold runInference
  rw [List.map_map]
  rfl

/-- Claim C5: on a message whose attribute map binds "userid" to `uid` and
whose payload is the UTF-8 encoding of codepoints `cps`, `tag_with_key`
succeeds and yields exactly the keyed record `(uid, cps)` — the key equals
the attribute value and the payload round-trips through UTF-8. -/
theorem tag_with_key_roundtrip (m : Message) (uid : String) (cps : List Nat)
    (huid : m.attributes.lookup "userid" = some uid)
    (hvalid : ∀ c ∈ cps, ValidCodepoint c)
    (hdata : m.data = utf8Encode cps) :
    tag_with_key m = .ok (uid, cps) := by
  unfold tag_with_key
  rw [huid]
  simp only []
  rw [hdata, utf8Decode_utf8Encode cps hvalid]

/-- Claim C5, witness: the message with userid "u1" and payload "hi"
(bytes 104, 105) is keyed to ("u1", [104, 105]). -/
theorem tag_with_key_roundtrip_witness :
    tag_with_key { attributes := [("userid", "u1")], data := utf8Encode [104, 105] }
      = .ok ("u1", [104, 105]) :=
  tag_with_key_roundtrip _ "u1" [104, 105] (by decide) (by decide) rfl

/-- Claim C6: `tag_with_key` fails exactly when the "userid" attribute is
absent or the payload is not valid UTF-8, and on every other input it
succeeds; the missing-key error is raised exactly when the attribute is
absent (Python evaluates the lookup first), and the decoding error exactly
when the attribute is present but the payload is invalid. The embedding is
a pure function, so neither outcome has side effects. -/
theorem tag_with_key_errors (m : Message) :
    ((∃ err, tag_with_key m = .error err)
        ↔ (m.attributes.lookup "userid" = none ∨ ¬ ValidUtf8 m.data))
    ∧ (tag_with_key m = .error .missingKey ↔ m.attributes.lookup "userid" = none)
    ∧ (tag_with_key m = .error .decoding
        ↔ (∃ uid, m.attributes.lookup "userid" = some uid) ∧ ¬ ValidUtf8 m.data) := by
  unfold tag_with_key
  rcases hl : m.attributes.lookup "userid" with _ | uid
  · simp
  · rcases hd : utf8Decode m.data with _ | cps
    · have hnv := (utf8Decode_none_iff m.data).mp hd
      simp [hnv]
    · have hv : ValidUtf8 m.data := (utf8Decode_isSome_iff m.data).mp ⟨cps, hd⟩
      simp [hv]

/-- Claim C7 (spec-modelled, `beam.CoGroupByKey` is external framework
code): within one window, for every key present in at least one of the two
inference streams the join emits exactly one joined record — the single
record carrying that key — pairing the key's predictions from each stream;
a stream that lacks the key contributes an empty list. -/
theorem coGroupByKey_join_spec {α : Type} (gaming movie : List (String × α)) (k : String)
    (hk : k ∈ gaming.map Prod.fst ∨ k ∈ movie.map Prod.fst) :
    ((coGroupByKey gaming movie).filter (fun p => p.1 == k)
        = [(k, (valuesFor k gaming, valuesFor k movie))])
    ∧ (k ∉ gaming.map Prod.fst → valuesFor k gaming = [])
    ∧ (k ∉ movie.map Prod.fst → valuesFor k movie = []) :=
  ⟨coGroupByKey_filter_key gaming movie k hk,
   valuesFor_eq_nil k gaming,
   valuesFor_eq_nil k movie⟩

/-- Claim C7, witness: the spec's scenario — key "u1" in both streams with
raw scores -9/10 and 3/10 inside one window — satisfies the hypothesis. -/
theorem coGroupByKey_join_spec_witness :
    ((coGroupByKey [("u1", (⟨[104], -(9/10 : ℚ)⟩ : PredictionResult))]
          [("u1", (⟨[104], (3/10 : ℚ)⟩ : PredictionResult))]).filter
          (fun p => p.1 == "u1")
        = [("u1",
            (valuesFor "u1" [("u1", (⟨[104], -(9/10 : ℚ)⟩ : PredictionResult))],
             valuesFor "u1" [("u1", (⟨[104], (3/10 : ℚ)⟩ : PredictionResult))]))])
    ∧ ("u1" ∉ List.map Prod.fst [("u1", (⟨[104], -(9/10 : ℚ)⟩ : PredictionResult))]
        → valuesFor "u1" [("u1", (⟨[104], -(9/10 : ℚ)⟩ : PredictionResult))] = [])
    ∧ ("u1" ∉ List.map Prod.fst [("u1", (⟨[104], (3/10 : ℚ)⟩ : PredictionResult))]
        → valuesFor "u1" [("u1", (⟨[104], (3/10 : ℚ)⟩ : PredictionResult))] = []) :=
  coGroupByKey_join_spec _ _ "u1" (Or.inl (by simp))

/-- Claim C8 (the `compile=False` argument is in the source; the semantics
of `tf.keras.models.load_model` is spec-modelled): for every model
location, `load_model` returns the keras model loaded from the handler's
location with compile disabled, so no training-mode state is materialized. -/
theorem load_model_compile_disabled (handler : extendTFModelHandlerTensor) :
    load_model handler = keras_load_model handler.model_uri false
    ∧ (load_model handler).compiled = false :=
  ⟨rfl, rfl⟩

/-- Claim C9: from a project id the pipeline derives the input topic
`projects/<p>/topics/tox-input`, the output topic
`projects/<p>/topics/tox-output`, the warehouse table `<p>:demo.tox`, and a
schema of a single nullable STRING column `data_col`; each written row
binds `data_col` to the rendered joined record. -/
theorem run_config_interfaces (project_id : String) :
    (run_config project_id).input_topic = "projects/" ++ project_id ++ "/topics/tox-input"
    ∧ (run_config project_id).output_topic
        = "projects/" ++ project_id ++ "/topics/tox-output"
    ∧ (run_config project_id).output_bigquery = project_id ++ ":demo.tox"
    ∧ (run_config project_id).table_schema = [("data_col", "STRING", "NULLABLE")]
    ∧ ∀ joined : String × (List PredictionResult × List PredictionResult),
        bigquery_row joined = [("data_col", pyStrJoinedRecord joined)] :=
  ⟨rfl, rfl, rfl, rfl, fun _ => rfl⟩

/-- Claim C10: `flag_for_toxic` leaves its element unchanged — its single
output pair carries the input record as second component — and the
downstream byte-string conversion serializes that entire keyed prediction
record (whatever the tag), not a reduced (key, raw_score) projection. -/
theorem flag_for_toxic_frame (element : String × PredictionResult) :
    (flag_for_toxic element).map Prod.snd = [element]
    ∧ ∀ tag : String,
        convert_to_bytestring (tag, element) = strToBytes (pyStrKeyedPrediction element) := by
  constructor
  · unfold flag_for_toxic
    by_cases h : -(1/2 : ℚ) < element.2.inference
    · rw [if_pos h]
      rfl
    · rw [if_neg h]
      rfl
  · intro tag
    rfl

end Part2
